import Mathlib

/-!
Verification of the worksheet generator (`wsgenerator.py`).

This file gives a shallow embedding of the core problem-generation and
formatting logic of the math worksheet generator, and proves the spec's
testable properties about it.

Modelling conventions:
* Python strings are Lean `String`s.
* `str(num)` for a non-negative integer is modelled by `pyStr` (decimal
  representation, most significant digit first, `"0"` for zero).
* `int(n**0.5)` is modelled by `int_sqrt n`, the exact integer square root
  (proved equal to `Nat.sqrt`), which is what the float computation yields on
  the sizes in scope.
* The global pseudorandom source is modelled by an explicit stream of
  natural-number draws (`Rng`) threaded through the generation functions:
  `random.randint(lo, hi)` consumes one draw `v` and yields
  `lo + v % (hi - lo + 1)`; `random.choice(l)` consumes one draw `v` and
  yields the element at index `v % l.length` (and fails on an empty list,
  like the Python `IndexError`).
* Python code that can raise (`find_factors(0)`, `random.choice([])`)
  is modelled with `Option`: `none` is an uncaught exception.
-/

/-- Little-endian decimal digits of `n`, with explicit fuel (the fuel `n + 1`
used below always suffices since `n / 10 < n` for `n ≥ 1`). -/
def digitsAux : ℕ → ℕ → List ℕ
  | 0, _ => []
  | fuel + 1, n => if n = 0 then [] else n % 10 :: digitsAux fuel (n / 10)

/-- The characters of Python `str(n)`: decimal digits, most significant
first; `['0']` for zero. -/
def pyStrChars (n : ℕ) : List Char :=
  if n = 0 then ['0']
  else (digitsAux (n + 1) n).reverse.map fun d => Char.ofNat (48 + d)

/-- Model of Python `str(n)` for a natural number `n`: its decimal
representation, most significant digit first; `"0"` for zero. -/
def pyStr (n : ℕ) : String := String.mk (pyStrChars n)

/-- Helper for `int_sqrt`: the largest `j ≤ k` with `j * j ≤ n` (or `0`). -/
def isqrtAux : ℕ → ℕ → ℕ
  | 0, _ => 0
  | k + 1, n => if (k + 1) * (k + 1) ≤ n then k + 1 else isqrtAux k n

/-- Model of Python `int(n**0.5)`: the exact integer square root (what the
float computation yields on the sizes in scope), as an executable function. -/
def int_sqrt (n : ℕ) : ℕ := isqrtAux n n



/-- Embedding of `find_factors` (wsgenerator.py lines 9-20):
`list(set(reduce(list.__add__, ([i, n//i] for i in range(1, int(n**0.5) + 1) if n % i == 0))))`.
When no candidate `i` satisfies the filter (exactly the case `n = 0`, where the
range is empty), `reduce` over an empty iterable raises `TypeError`; this is
modelled by `none`. -/
def find_factors (n : ℕ) : Option (List ℕ) :=
  if ((List.range' 1 (int_sqrt n)).filter fun i => n % i == 0) = [] then none
  else some ((((List.range' 1 (int_sqrt n)).filter fun i => n % i == 0).flatMap
    fun i => [i, n / i]).dedup)

/-- Embedding of `num_to_latex` (wsgenerator.py lines 22-36): left-pad the
decimal string of `num` with `'x'` up to `num_digits` characters, then join
the characters with `"\,"`, rendering each `'x'` as `"\phantom{0}"`. -/
def num_to_latex (num_digits : ℕ) (num : ℕ) : String :=
  let num_string := pyStr num
  let padding := String.mk (List.replicate (num_digits - num_string.length) 'x')
  let padded := padding ++ num_string
  String.intercalate "\\,"
    (padded.data.map fun digit => if digit = 'x' then "\\phantom\x7b0\x7d" else String.mk [digit])

/-- Embedding of `operation_to_latex` (wsgenerator.py lines 38-55): resolve an
operation token to its LaTeX symbol through a fixed alias table, passing
unmatched tokens through unchanged. -/
def operation_to_latex (operation : String) : String :=
  if operation ∈ ["add", "addition", "plus"] then "+"
  else if operation ∈ ["sub", "subtract", "subtraction", "minus"] then "-"
  else if operation ∈ ["multiply", "multiplication", "times", "x"] then "\\times"
  else if operation ∈ ["div", "divide", "division", "\\"] then "\\div"
  else operation

/-- Embedding of `create_problem_latex` (wsgenerator.py lines 57-84): the
f-string building one vertically stacked equation block. -/
def create_problem_latex (num_digits : ℕ) (operation : String) (num1 num2 : ℕ) : String :=
  let num1_latex := num_to_latex num_digits num1
  let num2_latex := num_to_latex num_digits num2
  let op := operation_to_latex operation
  "\\begin\x7bmyequation\x7d\n    \\begin\x7barray\x7d\x7br\x7d\n        "
    ++ num1_latex ++ " \\\\\n        "
    ++ op ++ "\\phantom\x7b0\x7d" ++ num2_latex ++ " \\\\\n        \\hline\\\\\n        \\hline\n    \\end\x7barray\x7d\n\\end\x7bmyequation\x7d"

/-- The process-wide pseudorandom source, modelled as a stream of raw
natural-number draws together with a position. -/
structure Rng where
  seq : ℕ → ℕ
  idx : ℕ

/-- Consume one raw draw from the stream. -/
def Rng.next (r : Rng) : ℕ × Rng := (r.seq r.idx, ⟨r.seq, r.idx + 1⟩)

/-- Model of `random.randint(lo, hi)` (both endpoints inclusive): one raw draw,
mapped into the interval. -/
def randint (lo hi : ℕ) (r : Rng) : ℕ × Rng :=
  (lo + r.next.1 % (hi - lo + 1), r.next.2)

/-- Model of `random.choice(l)`: one raw draw used as an index; raises
(`none`) on an empty list. -/
def pyChoice {α : Type} (l : List α) (r : Rng) : Option (α × Rng) :=
  match l with
  | [] => none
  | a :: as => some ((a :: as).getD (r.next.1 % (a :: as).length) a, r.next.2)

set_option linter.unusedVariables false in
/-- Embedding of `create_random_problem_latex` (wsgenerator.py lines 86-118).
The guard of the limiting branch is the source's own
`operation == '-' and operation == '\times'` (line 103), reproduced verbatim;
`limit_multiplication` is accepted and, as in the source body, never read. -/
def create_random_problem_latex (num_digits : ℕ) (included_operations : List String)
    (limit_multiplication : Bool) (r : Rng) : Option (String × Rng) :=
  match pyChoice included_operations r with
  | none => none
  | some (op0, r1) =>
    let operation := operation_to_latex op0
    let max_num := 10 ^ num_digits - 1
    let p1 := randint 0 max_num r1
    let p2 := randint 0 max_num p1.2
    let s3 :=
      if operation = "-" ∧ operation = "\\times" then
        let q1 := randint 0 12 p2.2
        let q2 := randint 0 12 q1.2
        (q1.1, q2.1, q2.2)
      else (p1.1, p2.1, p2.2)
    let num1 := s3.1
    let num2 := s3.2.1
    let r3 := s3.2.2
    let s4 := if operation = "-" ∧ num1 < num2 then (num2, num1) else (num1, num2)
    if operation = "\\div" then
      let pq := randint 0 max_num r3
      let quotient := pq.1
      match find_factors quotient with
      | none => none
      | some factors =>
        match pyChoice factors pq.2 with
        | none => none
        | some (divisor, r4) =>
          some (create_problem_latex num_digits operation quotient divisor, r4)
    else
      some (create_problem_latex num_digits operation s4.1 s4.2, r3)

/-- Model of the Python slice `s[:-2]` (wsgenerator.py line 140). -/
def stripLast2 (s : String) : String := String.mk (s.data.take (s.data.length - 2))

/-- The inner loop of `create_worksheet_latex` (lines 136-139): append `j`
more problem blocks, each followed by `"&\n"`. -/
def wsInnerLoop (num_digits : ℕ) (ops : List String) (lm : Bool) :
    ℕ → String → Rng → Option (String × Rng)
  | 0, acc, r => some (acc, r)
  | j + 1, acc, r =>
    match create_random_problem_latex num_digits ops lm r with
    | none => none
    | some (p, r1) => wsInnerLoop num_digits ops lm j (acc ++ p ++ "&\n") r1

/-- The outer loop of `create_worksheet_latex` (lines 135-141): for each of
`i` more rows, run the inner loop for 4 blocks, drop the trailing alignment
separator, and append the row break `"\\ \n"`. -/
def wsOuterLoop (num_digits : ℕ) (ops : List String) (lm : Bool) :
    ℕ → String → Rng → Option (String × Rng)
  | 0, acc, r => some (acc, r)
  | i + 1, acc, r =>
    match wsInnerLoop num_digits ops lm 4 acc r with
    | none => none
    | some (acc1, r1) => wsOuterLoop num_digits ops lm i (stripLast2 acc1 ++ "\\\\ \n") r1

/-- Embedding of `create_worksheet_latex` (wsgenerator.py lines 120-142):
5 rows of 4 problems each. -/
def create_worksheet_latex (num_digits : ℕ) (ops : List String) (lm : Bool) (r : Rng) :
    Option (String × Rng) :=
  wsOuterLoop num_digits ops lm 5 "" r

/-- The sequence of `n` successive problem blocks drawn from the generator,
used to state what the worksheet assembler produces. -/
def genProblems (num_digits : ℕ) (ops : List String) (lm : Bool) :
    ℕ → Rng → Option (List String × Rng)
  | 0, r => some ([], r)
  | n + 1, r =>
    match create_random_problem_latex num_digits ops lm r with
    | none => none
    | some (p, r1) =>
      match genProblems num_digits ops lm n r1 with
      | none => none
      | some (ps, r2) => some (p :: ps, r2)

/-- A block list as the inner loop accumulates it: every block followed by
the column separator `"&\n"`. -/
def sepJoin : List String → String
  | [] => ""
  | p :: ps => p ++ "&\n" ++ sepJoin ps

/-- The grid layout the spec describes: consecutive groups of four blocks,
joined inside a row by `"&\n"` with no separator after the fourth block, each
row terminated by `"\\ \n"`. -/
def rowsJoin : List String → String
  | p0 :: p1 :: p2 :: p3 :: rest =>
    p0 ++ "&\n" ++ p1 ++ "&\n" ++ p2 ++ "&\n" ++ p3 ++ "\\\\ \n" ++ rowsJoin rest
  | _ => ""

/-- The full alias table of `operation_to_latex`. -/
def operationAliases : List String :=
  ["add", "addition", "plus", "sub", "subtract", "subtraction", "minus",
   "multiply", "multiplication", "times", "x", "div", "divide", "division", "\\"]

/-- The raw draw stream for the C3 witness run: token `"div"`, operands 5
and 5 (discarded), quotient 6, divisor index 1. -/
def rngDiv : Rng := ⟨fun i => [0, 5, 5, 6, 1].getD i 0, 0⟩

/-- The raw draw stream for the C4 witness run: token `"-"`, then the spec's
example draws `(3, 7)` at `num_digits = 2` (`3 < 7`, so the operands swap). -/
def rngSub : Rng := ⟨fun i => [0, 3, 7].getD i 0, 0⟩

/-- The raw draw stream for the C9 witness run: token `"div"`, operands 5
and 5 (discarded), quotient 0. -/
def rngDivZero : Rng := ⟨fun i => [0, 5, 5, 0].getD i 0, 0⟩

/-- The raw draw stream exhibiting the C1 bug: token `"times"`, then operand
draws 99, 99 at `num_digits = 2` with `limit_multiplication = true`. -/
def rngMul : Rng := ⟨fun i => [0, 99, 99].getD i 0, 0⟩

/-- The raw draw stream for the C2 witness run. -/
def rngAdd : Rng := ⟨fun i => [0, 4, 2].getD i 0, 0⟩

/-- The all-zeros draw stream for the C5 witness run: every problem is
`0 + 0`. -/
def rngZero : Rng := ⟨fun _ => 0, 0⟩

theorem isqrtAux_eq_sqrt (k n : ℕ) (h : Nat.sqrt n ≤ k) : isqrtAux k n = Nat.sqrt n := by
  induction k with
  | zero => simpa [isqrtAux] using (Nat.le_antisymm h (Nat.zero_le _)).symm
  | succ k ih =>
    rw [isqrtAux]
    by_cases hk : (k + 1) * (k + 1) ≤ n
    · rw [if_pos hk]
      exact Nat.le_antisymm (Nat.le_sqrt.2 hk) h
    · rw [if_neg hk]
      refine ih ?_
      by_contra hlt
      push_neg at hlt
      exact hk (le_trans (Nat.mul_le_mul hlt hlt) (Nat.sqrt_le n))

theorem int_sqrt_eq_sqrt (n : ℕ) : int_sqrt n = Nat.sqrt n :=
  isqrtAux_eq_sqrt n n (Nat.sqrt_le_self n)

/-- Every value of `operation_to_latex` is a canonical symbol or the input
itself. -/
theorem operation_to_latex_cases (s : String) :
    operation_to_latex s = "+" ∨ operation_to_latex s = "-" ∨
    operation_to_latex s = "\\times" ∨ operation_to_latex s = "\\div" ∨
    operation_to_latex s = s := by
  unfold operation_to_latex
  split_ifs <;> tauto


/-- C8: the operation resolver is idempotent; a token matching no alias is
returned unchanged; and each already-canonical symbol resolves to itself. -/
theorem operation_resolver_idempotent :
    (∀ s : String, operation_to_latex (operation_to_latex s) = operation_to_latex s)
    ∧ (∀ s : String, s ∉ operationAliases → operation_to_latex s = s)
    ∧ operation_to_latex "+" = "+" ∧ operation_to_latex "-" = "-"
    ∧ operation_to_latex "\\times" = "\\times" ∧ operation_to_latex "\\div" = "\\div" := by
  refine ⟨fun s => ?_, fun s hs => ?_, by decide, by decide, by decide, by decide⟩
  · rcases operation_to_latex_cases s with h | h | h | h | h <;> rw [h]
    · decide
    · decide
    · decide
    · decide
    · exact h
  · have h1 : s ∉ (["add", "addition", "plus"] : List String) := fun hm =>
      hs (by simp only [operationAliases, List.mem_cons, List.not_mem_nil] at hm ⊢; tauto)
    have h2 : s ∉ (["sub", "subtract", "subtraction", "minus"] : List String) := fun hm =>
      hs (by simp only [operationAliases, List.mem_cons, List.not_mem_nil] at hm ⊢; tauto)
    have h3 : s ∉ (["multiply", "multiplication", "times", "x"] : List String) := fun hm =>
      hs (by simp only [operationAliases, List.mem_cons, List.not_mem_nil] at hm ⊢; tauto)
    have h4 : s ∉ (["div", "divide", "division", "\\"] : List String) := fun hm =>
      hs (by simp only [operationAliases, List.mem_cons, List.not_mem_nil] at hm ⊢; tauto)
    simp [operation_to_latex, h1, h2, h3, h4]

/-- Witness for C8 at concrete tokens. -/
theorem operation_resolver_idempotent_witness :
    operation_to_latex (operation_to_latex "times") = operation_to_latex "times"
    ∧ operation_to_latex "foo" = "foo" :=
  ⟨operation_resolver_idempotent.1 "times",
   operation_resolver_idempotent.2.1 "foo" (by decide)⟩

/-- C6: for every `n ≥ 1`, `find_factors` returns a duplicate-free list that
contains `1` and `n`, whose every element is a positive divisor of `n`, and
that contains every positive divisor of `n`. -/
theorem find_factors_spec (n : ℕ) (hn : 1 ≤ n) :
    ∃ l : List ℕ, find_factors n = some l ∧ 1 ∈ l ∧ n ∈ l
      ∧ (∀ d ∈ l, n % d = 0 ∧ 1 ≤ d) ∧ l.Nodup
      ∧ ∀ d : ℕ, 1 ≤ d → n % d = 0 → d ∈ l := by
  have hsq : 1 ≤ int_sqrt n := by rw [int_sqrt_eq_sqrt]; exact Nat.sqrt_pos.2 hn
  have h1mem : (1 : ℕ) ∈ (List.range' 1 (int_sqrt n)).filter fun i => n % i == 0 := by
    rw [List.mem_filter]
    exact ⟨List.mem_range'_1.2 ⟨le_refl 1, by omega⟩, by simp [Nat.mod_one]⟩
  have hne : ((List.range' 1 (int_sqrt n)).filter fun i => n % i == 0) ≠ [] := by
    intro h
    rw [h] at h1mem
    exact List.not_mem_nil _ h1mem
  refine ⟨(((List.range' 1 (int_sqrt n)).filter fun i => n % i == 0).flatMap
      fun i => [i, n / i]).dedup, ?_, ?_, ?_, ?_, List.nodup_dedup _, ?_⟩
  · unfold find_factors
    rw [if_neg hne]
  · rw [List.mem_dedup, List.mem_flatMap]
    exact ⟨1, h1mem, by simp⟩
  · rw [List.mem_dedup, List.mem_flatMap]
    refine ⟨1, h1mem, ?_⟩
    simp [Nat.div_one]
  · intro d hd
    rw [List.mem_dedup, List.mem_flatMap] at hd
    obtain ⟨i, hi, hdi⟩ := hd
    rw [List.mem_filter] at hi
    obtain ⟨hir, himod⟩ := hi
    have hi1 : 1 ≤ i := (List.mem_range'_1.1 hir).1
    have himod' : n % i = 0 := by simpa using himod
    have hidvd : i ∣ n := Nat.dvd_of_mod_eq_zero himod'
    simp only [List.mem_cons, List.not_mem_nil, or_false] at hdi
    rcases hdi with rfl | rfl
    · exact ⟨himod', hi1⟩
    · obtain ⟨k, hk⟩ := hidvd
      have hk' : n / i = k := by rw [hk, Nat.mul_div_cancel_left k (by omega)]
      have hkdvd : k ∣ n := ⟨i, by rw [hk, Nat.mul_comm]⟩
      have hkpos : 1 ≤ k := by
        rcases Nat.eq_zero_or_pos k with h0 | h1
        · rw [h0, Nat.mul_zero] at hk; omega
        · exact h1
      constructor
      · rw [hk']
        exact (Nat.mod_eq_zero_of_dvd hkdvd)
      · rw [hk']; exact hkpos
  · intro d hd1 hdmod
    have hdvd : d ∣ n := Nat.dvd_of_mod_eq_zero hdmod
    rw [List.mem_dedup, List.mem_flatMap]
    by_cases hdd : d * d ≤ n
    · have hds : d ≤ int_sqrt n := by rw [int_sqrt_eq_sqrt]; exact Nat.le_sqrt.2 hdd
      refine ⟨d, ?_, by simp⟩
      rw [List.mem_filter]
      exact ⟨List.mem_range'_1.2 ⟨hd1, by omega⟩, by simpa using hdmod⟩
    · push_neg at hdd
      have hd0 : 0 < d := hd1
      have hdn : d ≤ n := Nat.le_of_dvd (by omega) hdvd
      have he1 : 1 ≤ n / d := (Nat.one_le_div_iff hd0).2 hdn
      have helt : n / d < d := (Nat.div_lt_iff_lt_mul hd0).2 hdd
      have hee : n / d * (n / d) ≤ n :=
        le_trans (Nat.mul_le_mul_left _ (le_of_lt helt)) (Nat.div_mul_le_self n d)
      have hes : n / d ≤ int_sqrt n := by rw [int_sqrt_eq_sqrt]; exact Nat.le_sqrt.2 hee
      have hedvd : n / d ∣ n := by
        obtain ⟨k, hk⟩ := hdvd
        exact ⟨d, by rw [hk, Nat.mul_div_cancel_left k hd0, Nat.mul_comm]⟩
      refine ⟨n / d, ?_, ?_⟩
      · rw [List.mem_filter]
        refine ⟨List.mem_range'_1.2 ⟨he1, by omega⟩, ?_⟩
        simpa using Nat.mod_eq_zero_of_dvd hedvd
      · have : n / (n / d) = d := Nat.div_div_self hdvd (by omega)
        rw [this]
        simp

/-- Witness for C6 at `n = 6`. -/
theorem find_factors_spec_witness :
    (1 : ℕ) ≤ 6 ∧ ∃ l : List ℕ, find_factors 6 = some l ∧ 1 ∈ l ∧ 6 ∈ l
      ∧ (∀ d ∈ l, 6 % d = 0 ∧ 1 ≤ d) ∧ l.Nodup
      ∧ ∀ d : ℕ, 1 ≤ d → 6 % d = 0 → d ∈ l :=
  ⟨by decide, find_factors_spec 6 (by decide)⟩

/-- The model of `random.choice` only ever returns an element of its list. -/
theorem pyChoice_mem {α : Type} (l : List α) (r : Rng) (a : α) (r' : Rng)
    (h : pyChoice l r = some (a, r')) : a ∈ l := by
  unfold pyChoice at h
  cases l with
  | nil => simp at h
  | cons x xs =>
    simp only [Option.some.injEq, Prod.mk.injEq] at h
    obtain ⟨h1, _⟩ := h
    rw [List.getD_eq_getElem?_getD] at h1
    rcases hg : (x :: xs)[r.next.1 % (x :: xs).length]? with _ | v
    · rw [hg] at h1
      simp only [Option.getD] at h1
      exact h1 ▸ List.mem_cons_self x xs
    · rw [hg] at h1
      simp only [Option.getD] at h1
      exact h1 ▸ List.getElem?_mem hg

/-- Reduction of the generator on a run whose drawn token resolves to
division: two operand draws are made and discarded, then the quotient is
drawn and a divisor is chosen from its factor list. -/
theorem crpl_div_eq (num_digits : ℕ) (ops : List String) (lm : Bool)
    (r r1 : Rng) (op0 : String)
    (hchoice : pyChoice ops r = some (op0, r1))
    (hop : operation_to_latex op0 = "\\div") :
    create_random_problem_latex num_digits ops lm r =
      match find_factors (randint 0 (10 ^ num_digits - 1)
          ((randint 0 (10 ^ num_digits - 1) ((randint 0 (10 ^ num_digits - 1) r1).2)).2)).1 with
      | none => none
      | some factors =>
        match pyChoice factors (randint 0 (10 ^ num_digits - 1)
            ((randint 0 (10 ^ num_digits - 1) ((randint 0 (10 ^ num_digits - 1) r1).2)).2)).2 with
        | none => none
        | some (divisor, r4) =>
          some (create_problem_latex num_digits "\\div"
            (randint 0 (10 ^ num_digits - 1)
              ((randint 0 (10 ^ num_digits - 1) ((randint 0 (10 ^ num_digits - 1) r1).2)).2)).1
            divisor, r4) := by
  unfold create_random_problem_latex
  rw [hchoice]
  simp only [hop]
  simp

/-- Reduction of the generator on a run whose drawn token resolves to
subtraction: the two operand draws are swapped when the first is smaller. -/
theorem crpl_sub_eq (num_digits : ℕ) (ops : List String) (lm : Bool)
    (r r1 : Rng) (op0 : String)
    (hchoice : pyChoice ops r = some (op0, r1))
    (hop : operation_to_latex op0 = "-") :
    create_random_problem_latex num_digits ops lm r =
      some (create_problem_latex num_digits "-"
        (if (randint 0 (10 ^ num_digits - 1) r1).1 <
            (randint 0 (10 ^ num_digits - 1) (randint 0 (10 ^ num_digits - 1) r1).2).1
         then (randint 0 (10 ^ num_digits - 1) (randint 0 (10 ^ num_digits - 1) r1).2).1
         else (randint 0 (10 ^ num_digits - 1) r1).1)
        (if (randint 0 (10 ^ num_digits - 1) r1).1 <
            (randint 0 (10 ^ num_digits - 1) (randint 0 (10 ^ num_digits - 1) r1).2).1
         then (randint 0 (10 ^ num_digits - 1) r1).1
         else (randint 0 (10 ^ num_digits - 1) (randint 0 (10 ^ num_digits - 1) r1).2).1),
        (randint 0 (10 ^ num_digits - 1) (randint 0 (10 ^ num_digits - 1) r1).2).2) := by
  unfold create_random_problem_latex
  rw [hchoice]
  simp only [hop]
  simp [apply_ite]

/-- C3: every division problem the generator succeeds in producing has
`num1 = quotient` and `num2` drawn from the quotient's factor list, so
`num2 ≠ 0` and `num1 % num2 = 0`; the drawn quotient is necessarily `≥ 1`
on a successful run (a quotient of `0` makes the factorizer raise). -/
theorem divide_problems_divide_evenly (num_digits : ℕ) (ops : List String) (lm : Bool)
    (r r1 : Rng) (op0 : String) (s : String) (rf : Rng)
    (hchoice : pyChoice ops r = some (op0, r1))
    (hop : operation_to_latex op0 = "\\div")
    (hrun : create_random_problem_latex num_digits ops lm r = some (s, rf)) :
    ∃ (num1 num2 : ℕ) (factors : List ℕ),
      s = create_problem_latex num_digits "\\div" num1 num2
      ∧ find_factors num1 = some factors ∧ num2 ∈ factors
      ∧ 1 ≤ num1 ∧ num2 ≠ 0 ∧ num1 % num2 = 0 := by
  rw [crpl_div_eq num_digits ops lm r r1 op0 hchoice hop] at hrun
  split at hrun
  · exact Option.noConfusion hrun
  next factors hf =>
    split at hrun
    · exact Option.noConfusion hrun
    next divisor r4 hc =>
      simp only [Option.some.injEq, Prod.mk.injEq] at hrun
      obtain ⟨hs, _⟩ := hrun
      set q := (randint 0 (10 ^ num_digits - 1)
        ((randint 0 (10 ^ num_digits - 1) ((randint 0 (10 ^ num_digits - 1) r1).2)).2)).1 with hq
      have hq1 : 1 ≤ q := by
        by_contra hq0
        have hq0' : q = 0 := by omega
        rw [hq0'] at hf
        have hz : find_factors 0 = none := by decide
        rw [hz] at hf
        exact Option.noConfusion hf
      obtain ⟨l, hl, _, _, hsound, _, _⟩ := find_factors_spec q hq1
      rw [hl] at hf
      injection hf with hf
      rw [hf] at hsound hl
      have hmem : divisor ∈ factors := pyChoice_mem _ _ _ _ hc
      obtain ⟨hmod, hone⟩ := hsound divisor hmem
      exact ⟨q, divisor, factors, hs.symm, hl, hmem, hq1, by omega, hmod⟩


/-- Witness for C3: a concrete division run. -/
theorem divide_problems_divide_evenly_witness :
    ∃ (num1 num2 : ℕ) (factors : List ℕ),
      create_problem_latex 1 "\\div" 6 6 = create_problem_latex 1 "\\div" num1 num2
      ∧ find_factors num1 = some factors ∧ num2 ∈ factors
      ∧ 1 ≤ num1 ∧ num2 ≠ 0 ∧ num1 % num2 = 0 :=
  divide_problems_divide_evenly 1 ["div"] true rngDiv ⟨rngDiv.seq, 1⟩ "div"
    (create_problem_latex 1 "\\div" 6 6) ⟨rngDiv.seq, 5⟩ rfl (by decide) rfl

/-- C4: every subtraction problem the generator produces has
`num1 = max` and `num2 = min` of the two operand draws from
`[0, 10^num_digits - 1]` (the draws are swapped when the first is smaller),
so `num1 ≥ num2`. -/
theorem subtract_problems_nonneg (num_digits : ℕ) (ops : List String) (lm : Bool)
    (r r1 : Rng) (op0 : String) (s : String) (rf : Rng)
    (hchoice : pyChoice ops r = some (op0, r1))
    (hop : operation_to_latex op0 = "-")
    (hrun : create_random_problem_latex num_digits ops lm r = some (s, rf)) :
    ∃ num1 num2 : ℕ,
      s = create_problem_latex num_digits "-" num1 num2
      ∧ num2 ≤ num1
      ∧ num1 = max (randint 0 (10 ^ num_digits - 1) r1).1
          (randint 0 (10 ^ num_digits - 1) (randint 0 (10 ^ num_digits - 1) r1).2).1
      ∧ num2 = min (randint 0 (10 ^ num_digits - 1) r1).1
          (randint 0 (10 ^ num_digits - 1) (randint 0 (10 ^ num_digits - 1) r1).2).1 := by
  rw [crpl_sub_eq num_digits ops lm r r1 op0 hchoice hop] at hrun
  simp only [Option.some.injEq, Prod.mk.injEq] at hrun
  obtain ⟨hs, _⟩ := hrun
  refine ⟨_, _, hs.symm, ?_, ?_, ?_⟩
  · split_ifs <;> omega
  · rw [Nat.max_def]; split_ifs <;> omega
  · rw [Nat.min_def]; split_ifs <;> omega


/-- Witness for C4: the spec's example `(3, 7) → (7, 3)`. -/
theorem subtract_problems_nonneg_witness :
    ∃ num1 num2 : ℕ,
      create_problem_latex 2 "-" 7 3 = create_problem_latex 2 "-" num1 num2
      ∧ num2 ≤ num1
      ∧ num1 = max (randint 0 (10 ^ 2 - 1) ⟨rngSub.seq, 1⟩).1
          (randint 0 (10 ^ 2 - 1) (randint 0 (10 ^ 2 - 1) ⟨rngSub.seq, 1⟩).2).1
      ∧ num2 = min (randint 0 (10 ^ 2 - 1) ⟨rngSub.seq, 1⟩).1
          (randint 0 (10 ^ 2 - 1) (randint 0 (10 ^ 2 - 1) ⟨rngSub.seq, 1⟩).2).1 :=
  subtract_problems_nonneg 2 ["-"] true rngSub ⟨rngSub.seq, 1⟩ "-"
    (create_problem_latex 2 "-" 7 3) ⟨rngSub.seq, 3⟩ rfl (by decide) rfl

/-- C9: the factorizer raises on input `0` (the `reduce` runs over an empty
iterable), so a division run whose drawn quotient is `0` — an outcome inside
the quotient range `[0, 10^num_digits - 1]` — makes the whole problem
generation raise instead of producing equation text. -/
theorem factorizer_zero_raises (num_digits : ℕ) (ops : List String) (lm : Bool)
    (r r1 : Rng) (op0 : String)
    (hchoice : pyChoice ops r = some (op0, r1))
    (hop : operation_to_latex op0 = "\\div")
    (hq : (randint 0 (10 ^ num_digits - 1)
        ((randint 0 (10 ^ num_digits - 1) ((randint 0 (10 ^ num_digits - 1) r1).2)).2)).1 = 0) :
    find_factors 0 = none
    ∧ create_random_problem_latex num_digits ops lm r = none := by
  refine ⟨by decide, ?_⟩
  rw [crpl_div_eq num_digits ops lm r r1 op0 hchoice hop, hq]
  have hz : find_factors 0 = none := by decide
  rw [hz]


/-- Witness for C9: a concrete run that draws quotient 0 and raises. -/
theorem factorizer_zero_raises_witness :
    find_factors 0 = none
    ∧ create_random_problem_latex 1 ["div"] true rngDivZero = none :=
  factorizer_zero_raises 1 ["div"] true rngDivZero ⟨rngDivZero.seq, 1⟩ "div"
    rfl (by decide) rfl


/-- C1 (code bug): with `limit_multiplication = true` a multiplication run can
produce operands far above 12 — the limiting branch's guard
`operation == '-' and operation == '\times'` never fires. Here a concrete run
at `num_digits = 2` yields the problem `99 × 99`. -/
theorem limit_multiplication_not_enforced :
    create_random_problem_latex 2 ["times"] true rngMul
      = some (create_problem_latex 2 "\\times" 99 99, ⟨rngMul.seq, 3⟩)
    ∧ ¬(99 ≤ 12) :=
  ⟨rfl, by decide⟩

/-- C2: `limit_multiplication` has no effect on any output — for every fixed
draw stream, problem generation and worksheet generation return identical
results for `true` and `false` — because the branch guarded by
`operation = "-" ∧ operation = "\times"` is unreachable: no string equals
both `"-"` and `"\times"`. -/
theorem limit_multiplication_no_effect :
    (∀ (num_digits : ℕ) (ops : List String) (lm1 lm2 : Bool) (r : Rng),
      create_random_problem_latex num_digits ops lm1 r
        = create_random_problem_latex num_digits ops lm2 r)
    ∧ (∀ (num_digits : ℕ) (ops : List String) (lm1 lm2 : Bool) (r : Rng),
      create_worksheet_latex num_digits ops lm1 r = create_worksheet_latex num_digits ops lm2 r)
    ∧ ∀ operation : String, ¬(operation = "-" ∧ operation = "\\times") := by
  have hinner : ∀ (d : ℕ) (ops : List String) (lm1 lm2 : Bool) (j : ℕ) (acc : String) (r : Rng),
      wsInnerLoop d ops lm1 j acc r = wsInnerLoop d ops lm2 j acc r := by
    intro d ops lm1 lm2 j
    induction j with
    | zero => intro acc r; rfl
    | succ j ih =>
      intro acc r
      unfold wsInnerLoop
      have he : create_random_problem_latex d ops lm1 r
          = create_random_problem_latex d ops lm2 r := rfl
      rw [he]
      cases create_random_problem_latex d ops lm2 r with
      | none => rfl
      | some pr => exact ih (acc ++ pr.1 ++ "&\n") pr.2
  have houter : ∀ (d : ℕ) (ops : List String) (lm1 lm2 : Bool) (i : ℕ) (acc : String) (r : Rng),
      wsOuterLoop d ops lm1 i acc r = wsOuterLoop d ops lm2 i acc r := by
    intro d ops lm1 lm2 i
    induction i with
    | zero => intro acc r; rfl
    | succ i ih =>
      intro acc r
      unfold wsOuterLoop
      rw [hinner d ops lm1 lm2 4 acc r]
      cases wsInnerLoop d ops lm2 4 acc r with
      | none => rfl
      | some pr => exact ih (stripLast2 pr.1 ++ "\\\\ \n") pr.2
  refine ⟨fun _ _ _ _ _ => rfl, fun d ops lm1 lm2 r => houter d ops lm1 lm2 5 "" r, ?_⟩
  rintro op ⟨h1, h2⟩
  rw [h1] at h2
  exact absurd h2 (by decide)


/-- Witness for C2 at a concrete configuration and draw stream. -/
theorem limit_multiplication_no_effect_witness :
    create_random_problem_latex 1 ["+"] true rngAdd
      = create_random_problem_latex 1 ["+"] false rngAdd
    ∧ create_worksheet_latex 1 ["+"] true rngAdd = create_worksheet_latex 1 ["+"] false rngAdd
    ∧ ¬("+" = "-" ∧ "+" = "\\times") :=
  ⟨limit_multiplication_no_effect.1 1 ["+"] true false rngAdd,
   limit_multiplication_no_effect.2.1 1 ["+"] true false rngAdd,
   limit_multiplication_no_effect.2.2 "+"⟩

/-- Every entry produced by `digitsAux` is a decimal digit. -/
theorem digitsAux_lt_ten : ∀ (fuel n : ℕ), ∀ d ∈ digitsAux fuel n, d < 10 := by
  intro fuel
  induction fuel with
  | zero => intro n d hd; simp [digitsAux] at hd
  | succ fuel ih =>
    intro n d hd
    rw [digitsAux] at hd
    by_cases hn : n = 0
    · rw [if_pos hn] at hd; simp at hd
    · rw [if_neg hn] at hd
      rcases List.mem_cons.1 hd with rfl | hd
      · omega
      · exact ih _ d hd

/-- No character of a decimal representation is the padding marker `'x'`. -/
theorem pyStr_no_x (n : ℕ) : ∀ c ∈ (pyStr n).data, c ≠ 'x' := by
  intro c hc
  have hc' : c ∈ pyStrChars n := hc
  unfold pyStrChars at hc'
  by_cases hn : n = 0
  · rw [if_pos hn] at hc'
    simp at hc'
    subst hc'
    decide
  · rw [if_neg hn] at hc'
    rw [List.mem_map] at hc'
    obtain ⟨d, hd, rfl⟩ := hc'
    have hd10 : d < 10 := digitsAux_lt_ten _ _ d (List.mem_reverse.1 hd)
    interval_cases d <;> decide

/-- C7: when `x`'s decimal representation fits in `w` digit positions, the
operand formatter emits exactly `w` positions joined by `"\,"`: the leftmost
`w - len(x)` are the blank-padding marker `"\phantom{0}"`, the rest are the
digits of `x` in order. -/
theorem operand_formatter_pads (w x : ℕ) (h : (pyStr x).length ≤ w) :
    num_to_latex w x =
      String.intercalate "\\,"
        (List.replicate (w - (pyStr x).length) "\\phantom\x7b0\x7d"
          ++ (pyStr x).data.map fun c => String.mk [c])
    ∧ (List.replicate (w - (pyStr x).length) "\\phantom\x7b0\x7d"
        ++ (pyStr x).data.map fun c => String.mk [c]).length = w := by
  constructor
  · simp only [num_to_latex]
    congr 1
    rw [show (String.mk (List.replicate (w - (pyStr x).length) 'x') ++ pyStr x).data
        = List.replicate (w - (pyStr x).length) 'x' ++ (pyStr x).data from rfl]
    rw [List.map_append]
    congr 1
    · rw [List.map_replicate]
      simp
    · exact List.map_congr_left fun c hc => if_neg (pyStr_no_x x c hc)
  · rw [List.length_append, List.length_replicate, List.length_map]
    have hlen : (pyStr x).length = (pyStr x).data.length := rfl
    omega

/-- Witness for C7 at `w = 3`, `x = 40`. -/
theorem operand_formatter_pads_witness :
    (num_to_latex 3 40 =
      String.intercalate "\\,"
        (List.replicate (3 - (pyStr 40).length) "\\phantom\x7b0\x7d"
          ++ (pyStr 40).data.map fun c => String.mk [c]))
    ∧ (List.replicate (3 - (pyStr 40).length) "\\phantom\x7b0\x7d"
        ++ (pyStr 40).data.map fun c => String.mk [c]).length = 3 :=
  operand_formatter_pads 3 40 (by decide)

/-- C10: when `x`'s decimal representation is longer than `w`, the operand
formatter adds no padding at all: the output is just `x`'s digits joined by
`"\,"`, and no digit position can be the blank-padding marker (which is never
a single-character string); no error is raised. -/
theorem operand_formatter_overflow (w x : ℕ) (h : w < (pyStr x).length) :
    num_to_latex w x =
      String.intercalate "\\," ((pyStr x).data.map fun c => String.mk [c])
    ∧ ∀ c : Char, String.mk [c] ≠ "\\phantom\x7b0\x7d" := by
  constructor
  · simp only [num_to_latex]
    have hz : w - (pyStr x).length = 0 := by omega
    rw [hz]
    congr 1
    rw [show (String.mk (List.replicate 0 'x') ++ pyStr x).data = (pyStr x).data from rfl]
    exact List.map_congr_left fun c hc => if_neg (pyStr_no_x x c hc)
  · intro c hc
    have h1 : (String.mk [c]).length = 1 := rfl
    have h2 := congrArg String.length hc
    rw [h1] at h2
    exact absurd h2 (by decide)

/-- Witness for C10 at `w = 1`, `x = 407`. -/
theorem operand_formatter_overflow_witness :
    (num_to_latex 1 407 =
      String.intercalate "\\," ((pyStr 407).data.map fun c => String.mk [c]))
    ∧ ∀ c : Char, String.mk [c] ≠ "\\phantom\x7b0\x7d" :=
  operand_formatter_overflow 1 407 (by decide)

/-- The block sequence `genProblems` returns exactly as many blocks as requested. -/
theorem genProblems_length (d : ℕ) (ops : List String) (lm : Bool) :
    ∀ (n : ℕ) (r : Rng) (ps : List String) (r2 : Rng),
      genProblems d ops lm n r = some (ps, r2) → ps.length = n := by
  intro n
  induction n with
  | zero =>
    intro r ps r2 h
    simp only [genProblems, Option.some.injEq, Prod.mk.injEq] at h
    rw [← h.1]
    rfl
  | succ n ih =>
    intro r ps r2 h
    unfold genProblems at h
    split at h
    · exact Option.noConfusion h
    next p r1 _ =>
      split at h
      · exact Option.noConfusion h
      next qs r3 hq =>
        simp only [Option.some.injEq, Prod.mk.injEq] at h
        rw [← h.1]
        simp only [List.length_cons, ih r1 qs r3 hq]

/-- Unfolding `genProblems` one step. -/
theorem genProblems_succ (d : ℕ) (ops : List String) (lm : Bool) (n : ℕ) (r : Rng) :
    genProblems d ops lm (n + 1) r =
      match create_random_problem_latex d ops lm r with
      | none => none
      | some (p, r1) =>
        match genProblems d ops lm n r1 with
        | none => none
        | some (ps, r2) => some (p :: ps, r2) := rfl

/-- A list of length four is a four-element list. -/
theorem list_length_four {α : Type} : ∀ l : List α, l.length = 4 →
    ∃ a b c d, l = [a, b, c, d]
  | [a, b, c, d], _ => ⟨a, b, c, d, rfl⟩
  | [], h => by simp at h
  | [a], h => by simp at h
  | [a, b], h => by simp at h
  | [a, b, c], h => by simp at h
  | a :: b :: c :: d :: e :: t, h => by simp at h

/-- Drawing `m + n` blocks is drawing `m` blocks and then `n` more. -/
theorem genProblems_add (d : ℕ) (ops : List String) (lm : Bool) (m n : ℕ) :
    ∀ r : Rng, genProblems d ops lm (m + n) r =
      match genProblems d ops lm m r with
      | none => none
      | some (ps, r1) =>
        match genProblems d ops lm n r1 with
        | none => none
        | some (qs, r2) => some (ps ++ qs, r2) := by
  induction m with
  | zero =>
    intro r
    rw [Nat.zero_add]
    rw [show genProblems d ops lm 0 r = some ([], r) from rfl]
    dsimp only
    cases genProblems d ops lm n r with
    | none => rfl
    | some qr => rfl
  | succ m ih =>
    intro r
    rw [Nat.succ_add, genProblems_succ d ops lm (m + n) r, genProblems_succ d ops lm m r]
    cases create_random_problem_latex d ops lm r with
    | none => rfl
    | some pr =>
      obtain ⟨p, r1⟩ := pr
      dsimp only
      rw [ih r1]
      cases genProblems d ops lm m r1 with
      | none => rfl
      | some qr =>
        obtain ⟨ps, r2⟩ := qr
        dsimp only
        cases genProblems d ops lm n r2 with
        | none => rfl
        | some sr => rfl

/-- The inner loop appends to the accumulator each generated block followed
by the column separator. -/
theorem wsInnerLoop_eq (d : ℕ) (ops : List String) (lm : Bool) :
    ∀ (j : ℕ) (acc : String) (r : Rng),
      wsInnerLoop d ops lm j acc r =
        match genProblems d ops lm j r with
        | none => none
        | some (ps, r1) => some (acc ++ sepJoin ps, r1) := by
  intro j
  induction j with
  | zero =>
    intro acc r
    show some (acc, r) = some (acc ++ sepJoin [], r)
    rw [show sepJoin [] = "" from rfl, String.append_empty]
  | succ j ih =>
    intro acc r
    rw [show wsInnerLoop d ops lm (j + 1) acc r =
        match create_random_problem_latex d ops lm r with
        | none => none
        | some (p, r1) => wsInnerLoop d ops lm j (acc ++ p ++ "&\n") r1 from rfl]
    rw [genProblems_succ]
    cases create_random_problem_latex d ops lm r with
    | none => rfl
    | some pr =>
      obtain ⟨p, r1⟩ := pr
      dsimp only
      rw [ih]
      cases genProblems d ops lm j r1 with
      | none => rfl
      | some qr =>
        obtain ⟨ps, r2⟩ := qr
        dsimp only
        rw [show sepJoin (p :: ps) = p ++ "&\n" ++ sepJoin ps from rfl]
        simp [String.append_assoc]

/-- Dropping the final two characters removes exactly a trailing `"&\n"`. -/
theorem stripLast2_append (s : String) : stripLast2 (s ++ "&\n") = s := by
  apply String.ext
  show (s ++ "&\n").data.take ((s ++ "&\n").data.length - 2) = s.data
  rw [show (s ++ "&\n").data = s.data ++ ['&', '\n'] from rfl]
  rw [List.length_append]
  rw [show (['&', '\n'] : List Char).length = 2 from rfl]
  rw [Nat.add_sub_cancel]
  exact List.take_left s.data _

/-- One row's assembly: strip the trailing separator off four accumulated
blocks and append the row break. -/
theorem strip_row_eq (acc p0 p1 p2 p3 : String) :
    stripLast2 (acc ++ sepJoin [p0, p1, p2, p3]) ++ "\\\\ \n"
      = acc ++ (p0 ++ "&\n" ++ p1 ++ "&\n" ++ p2 ++ "&\n" ++ p3 ++ "\\\\ \n") := by
  have h : acc ++ sepJoin [p0, p1, p2, p3]
      = (acc ++ p0 ++ "&\n" ++ p1 ++ "&\n" ++ p2 ++ "&\n" ++ p3) ++ "&\n" := by
    simp [sepJoin, String.append_assoc, String.append_empty]
  rw [h, stripLast2_append]
  simp [String.append_assoc]

/-- The outer loop appends to the accumulator one assembled row per
iteration, each made of four fresh generator blocks. -/
theorem wsOuterLoop_eq (d : ℕ) (ops : List String) (lm : Bool) :
    ∀ (i : ℕ) (acc : String) (r : Rng),
      wsOuterLoop d ops lm i acc r =
        match genProblems d ops lm (4 * i) r with
        | none => none
        | some (ps, r1) => some (acc ++ rowsJoin ps, r1) := by
  intro i
  induction i with
  | zero =>
    intro acc r
    show some (acc, r) = some (acc ++ rowsJoin [], r)
    rw [show rowsJoin [] = "" from rfl, String.append_empty]
  | succ i ih =>
    intro acc r
    rw [show wsOuterLoop d ops lm (i + 1) acc r =
        match wsInnerLoop d ops lm 4 acc r with
        | none => none
        | some (acc1, r1) =>
          wsOuterLoop d ops lm i (stripLast2 acc1 ++ "\\\\ \n") r1 from rfl]
    rw [wsInnerLoop_eq]
    rw [show 4 * (i + 1) = 4 + 4 * i by omega]
    rw [genProblems_add d ops lm 4 (4 * i) r]
    cases hg4 : genProblems d ops lm 4 r with
    | none => rfl
    | some pr4 =>
      obtain ⟨ps4, r1⟩ := pr4
      have hlen : ps4.length = 4 := genProblems_length d ops lm 4 r ps4 r1 hg4
      obtain ⟨p0, p1, p2, p3, rfl⟩ := list_length_four ps4 hlen
      dsimp only
      rw [ih]
      cases genProblems d ops lm (4 * i) r1 with
      | none => rfl
      | some qr =>
        obtain ⟨qs, r2⟩ := qr
        dsimp only
        rw [strip_row_eq]
        rw [show ([p0, p1, p2, p3] : List String) ++ qs = p0 :: p1 :: p2 :: p3 :: qs from rfl]
        rw [show rowsJoin (p0 :: p1 :: p2 :: p3 :: qs)
          = p0 ++ "&\n" ++ p1 ++ "&\n" ++ p2 ++ "&\n" ++ p3 ++ "\\\\ \n" ++ rowsJoin qs
          from rfl]
        simp [String.append_assoc]

/-- C5: a successful worksheet run is exactly 20 generator blocks laid out
as 5 rows of 4: inside a row blocks are joined by `"&\n"`, the separator
after the last block of each row is stripped, and every row ends with
`"\\ \n"`. -/
theorem worksheet_layout (d : ℕ) (ops : List String) (lm : Bool) (r : Rng)
    (s : String) (rf : Rng)
    (hrun : create_worksheet_latex d ops lm r = some (s, rf)) :
    ∃ (ps : List String) (r2 : Rng),
      genProblems d ops lm 20 r = some (ps, r2) ∧ ps.length = 20 ∧ rf = r2
      ∧ s = rowsJoin ps := by
  unfold create_worksheet_latex at hrun
  rw [wsOuterLoop_eq] at hrun
  rw [show 4 * 5 = 20 from rfl] at hrun
  cases hg : genProblems d ops lm 20 r with
  | none => rw [hg] at hrun; exact Option.noConfusion hrun
  | some pr =>
    obtain ⟨ps, r2⟩ := pr
    rw [hg] at hrun
    simp only [Option.some.injEq, Prod.mk.injEq] at hrun
    obtain ⟨hs, hr⟩ := hrun
    exact ⟨ps, r2, rfl, genProblems_length d ops lm 20 r ps r2 hg, hr.symm, hs.symm⟩


set_option maxRecDepth 4000 in
/-- Witness for C5: a concrete full worksheet run (20 identical `0 + 0`
blocks, 60 raw draws consumed). -/
theorem worksheet_layout_witness :
    ∃ (ps : List String) (r2 : Rng),
      genProblems 1 ["+"] true 20 rngZero = some (ps, r2) ∧ ps.length = 20
      ∧ (⟨rngZero.seq, 60⟩ : Rng) = r2
      ∧ rowsJoin (List.replicate 20 (create_problem_latex 1 "+" 0 0)) = rowsJoin ps :=
  worksheet_layout 1 ["+"] true rngZero
    (rowsJoin (List.replicate 20 (create_problem_latex 1 "+" 0 0))) ⟨rngZero.seq, 60⟩
    (by
      unfold create_worksheet_latex
      rw [wsOuterLoop_eq]
      rw [show (4 * 5 : ℕ) = 20 from rfl]
      rw [show genProblems 1 ["+"] true 20 rngZero
        = some (List.replicate 20 (create_problem_latex 1 "+" 0 0), ⟨rngZero.seq, 60⟩)
        from rfl]
      rfl)

